import Mathlib

/-!
Verification development for the media persistence and query layer
(`media/__init__.py`).  The Python source is shallowly embedded: pure helper
functions become Lean functions, the SQL tables become lists of row records,
queries become filter / sort operations on those lists, and Python exceptions
become `Except` values.  Machine 128-bit identifiers are modelled as `Nat`
(byte strings as `List Nat` where Python truthiness of `bytes` matters).
-/

namespace MediaSpec

/-- Python exception classes relevant to the embedded code paths. -/
inductive PyErr
  | keyError
  | valueError
  | typeError
  | attributeError
deriving DecidableEq, Repr

/-- Enum `MediumStatus` with members FORBIDDEN = -2, COPYRIGHT = -1, ALLOWED = 1. -/
inductive MediumStatus
  | FORBIDDEN
  | COPYRIGHT
  | ALLOWED
deriving DecidableEq, Repr

/-- Integer value of a `MediumStatus` member (`__int__` / `.value`). -/
def MediumStatus.value : MediumStatus → Int
  | .FORBIDDEN => -2
  | .COPYRIGHT => -1
  | .ALLOWED => 1

/-- Name lookup `MediumStatus[name]`; unknown names raise `KeyError`. -/
def MediumStatus.fromName : String → Except PyErr MediumStatus
  | "FORBIDDEN" => .ok .FORBIDDEN
  | "COPYRIGHT" => .ok .COPYRIGHT
  | "ALLOWED" => .ok .ALLOWED
  | _ => .error .keyError

/-- Value lookup `MediumStatus(n)`; values outside the members raise `ValueError`. -/
def MediumStatus.fromValue : Int → Except PyErr MediumStatus
  | -2 => .ok .FORBIDDEN
  | -1 => .ok .COPYRIGHT
  | 1 => .ok .ALLOWED
  | _ => .error .valueError

/-- Enum `MediumProtection` with members NONE = 1, GROUPS = 2, PRIVATE = 3. -/
inductive MediumProtection
  | NONE
  | GROUPS
  | PRIVATE
deriving DecidableEq, Repr

/-- Integer value of a `MediumProtection` member. -/
def MediumProtection.value : MediumProtection → Int
  | .NONE => 1
  | .GROUPS => 2
  | .PRIVATE => 3

/-- Name lookup `MediumProtection[name]`. -/
def MediumProtection.fromName : String → Except PyErr MediumProtection
  | "NONE" => .ok .NONE
  | "GROUPS" => .ok .GROUPS
  | "PRIVATE" => .ok .PRIVATE
  | _ => .error .keyError

/-- Value lookup `MediumProtection(n)`. -/
def MediumProtection.fromValue : Int → Except PyErr MediumProtection
  | 1 => .ok .NONE
  | 2 => .ok .GROUPS
  | 3 => .ok .PRIVATE
  | _ => .error .valueError

/-- Enum `MediumSearchability` with members HIDDEN = 1, GROUPS = 2, PUBLIC = 3. -/
inductive MediumSearchability
  | HIDDEN
  | GROUPS
  | PUBLIC
deriving DecidableEq, Repr

/-- Integer value of a `MediumSearchability` member. -/
def MediumSearchability.value : MediumSearchability → Int
  | .HIDDEN => 1
  | .GROUPS => 2
  | .PUBLIC => 3

/-- Name lookup `MediumSearchability[name]`. -/
def MediumSearchability.fromName : String → Except PyErr MediumSearchability
  | "HIDDEN" => .ok .HIDDEN
  | "GROUPS" => .ok .GROUPS
  | "PUBLIC" => .ok .PUBLIC
  | _ => .error .keyError

/-- Value lookup `MediumSearchability(n)`. -/
def MediumSearchability.fromValue : Int → Except PyErr MediumSearchability
  | 1 => .ok .HIDDEN
  | 2 => .ok .GROUPS
  | 3 => .ok .PUBLIC
  | _ => .error .valueError

/-- Dynamic value supplied in a filter for an enum field.  Python dispatches on
`isinstance` checks for `str`, `int` and the enum class itself; anything else
falls through to the final `TypeError` branch. -/
inductive FilterVal
  | name (s : String)
  | int (n : Int)
  | status (m : MediumStatus)
  | protection (m : MediumProtection)
  | searchability (m : MediumSearchability)
  | other
deriving DecidableEq, Repr

/-- Embedding of `parse_status` (source lines 23-30): strings go through
`MediumStatus[...]`, ints through `MediumStatus(...)`, members pass through,
everything else raises `TypeError`. -/
def parse_status : FilterVal → Except PyErr MediumStatus
  | .name s => MediumStatus.fromName s
  | .int n => MediumStatus.fromValue n
  | .status m => .ok m
  | _ => .error .typeError

/-- Embedding of `parse_protection` (source lines 32-39). -/
def parse_protection : FilterVal → Except PyErr MediumProtection
  | .name s => MediumProtection.fromName s
  | .int n => MediumProtection.fromValue n
  | .protection m => .ok m
  | _ => .error .typeError

/-- Embedding of `parse_searchability` (source lines 41-48).  The `int` branch
of the source reads `searchability = MediumSearchability()` - the enum class is
called WITHOUT the value argument, so Python raises
`TypeError: missing required argument` instead of converting the integer. -/
def parse_searchability : FilterVal → Except PyErr MediumSearchability
  | .name s => MediumSearchability.fromName s
  | .int _ => .error .typeError
  | .searchability m => .ok m
  | _ => .error .typeError

/-! ## Tags table and `count_tags` (claim C10) -/

/-- Row of the `tags` table: `(medium_id, tag)` with the pair as primary key. -/
structure TagRow where
  medium_id : Nat
  tag : String
deriving DecidableEq, Repr

/-- Column names of the `tags` table as declared in `Media.__init__`
(source lines 258-264). -/
def tagsTableColumns : List String := ["medium_id", "tag"]

/-- Attribute access `table.c.<name>`: SQLAlchemy raises `AttributeError` when
the named column does not exist on the table. -/
def columnAttr (cols : List String) (name : String) : Except PyErr String :=
  if name ∈ cols then .ok name else .error .attributeError

/-- Embedding of `Media.count_tags` (source lines 989-992): it builds the
search statement, then counts over `self.tags.c.media_id`.  The column
attribute it asks for is the literal string appearing in the source. -/
def count_tags (tagRows : List TagRow) (cond : TagRow → Bool) : Except PyErr Nat := do
  let _col ← columnAttr tagsTableColumns "media_id"
  .ok ((tagRows.filter cond).length)

/-! ## Enum with / without filters (claims C3 and C4)

The enum-field loop of `prepare_media_search_conditions` (source lines
334-377) ranges over the triples `(parse_status, 'statuses', status column)`,
`(parse_protection, 'protections', protection column)` and
`(parse_searchability, 'searchabilities', searchability column)`.  Only the
three enum columns are consulted, so the row model carries exactly those
integer columns; the remaining AND-ed conditions of a search are abstracted
into an arbitrary predicate `Q`. -/

/-- Enum columns of a `media` row, as stored (integers). -/
structure EnumRow where
  status : Int
  protection : Int
  searchability : Int
deriving DecidableEq, Repr

/-- The three enum filter fields handled by the loop. -/
inductive EnumField
  | statuses
  | protections
  | searchabilities
deriving DecidableEq, Repr

/-- Parse a filter value for the given field and take `int(property)` of the
resulting member, exactly as the append of `column == int(property)` does. -/
def fieldParse : EnumField → FilterVal → Except PyErr Int
  | .statuses, v => (parse_status v).map MediumStatus.value
  | .protections, v => (parse_protection v).map MediumProtection.value
  | .searchabilities, v => (parse_searchability v).map MediumSearchability.value

/-- The column the field compares against. -/
def fieldColumn : EnumField → EnumRow → Int
  | .statuses, r => r.status
  | .protections, r => r.protection
  | .searchabilities, r => r.searchability

/-- Condition built for `with_<field>` (source lines 343-359): each value is
parsed, failures are dropped (`except: pass`), successes contribute
`column == int(property)`; the block is OR-ed together, and an empty block
appends the literal `False` condition. -/
def withFieldCondition (f : EnumField) (vals : List FilterVal) (r : EnumRow) : Bool :=
  let block := vals.filterMap (fun v => (fieldParse f v).toOption)
  if block.isEmpty then false else block.any (fun n => fieldColumn f r == n)

/-- Condition built for `without_<field>` (source lines 360-377): failures are
skipped, successes contribute `column != int(property)` AND-ed together, and an
empty block likewise appends the literal `False` condition. -/
def withoutFieldCondition (f : EnumField) (vals : List FilterVal) (r : EnumRow) : Bool :=
  let block := vals.filterMap (fun v => (fieldParse f v).toOption)
  if block.isEmpty then false else block.all (fun n => !(fieldColumn f r == n))

/-- Search restricted by a `with_<field>` key: rows satisfying the other
conditions `Q` and the with-block condition. -/
def searchWith (f : EnumField) (db : List EnumRow) (Q : EnumRow → Bool)
    (vals : List FilterVal) : List EnumRow :=
  db.filter (fun r => Q r && withFieldCondition f vals r)

/-- Search with an optional `without_<field>` key (`none` means the key is
absent from the filter dict, so the loop adds no condition for it). -/
def searchWithout (f : EnumField) (db : List EnumRow) (Q : EnumRow → Bool) :
    Option (List FilterVal) → List EnumRow
  | none => db.filter (fun r => Q r)
  | some vals => db.filter (fun r => Q r && withoutFieldCondition f vals r)

/-! ## Derived geometric predicates (claim C8) -/

/-- Descriptor columns consulted by the `portrait` / `landscape` filters. -/
structure GeoRow where
  data1 : Int
  data2 : Int
deriving DecidableEq, Repr

/-- Conditions appended for the `portrait` filter key (source lines 407-417). -/
def portraitConditions (v : Bool) : List (GeoRow → Bool) :=
  if v then
    [fun r => decide (0 < r.data1),
     fun r => decide (0 < r.data2),
     fun r => decide (r.data1 < r.data2)]
  else
    [fun r => decide (r.data2 ≤ r.data1)]

/-- Conditions appended for the `landscape` filter key (source lines 418-428). -/
def landscapeConditions (v : Bool) : List (GeoRow → Bool) :=
  if v then
    [fun r => decide (0 < r.data1),
     fun r => decide (0 < r.data2),
     fun r => decide (r.data2 < r.data1)]
  else
    [fun r => decide (r.data1 ≤ r.data2)]

/-- A row passes a condition list when it satisfies every condition
(the caller AND-s the list together). -/
def holdsAll (cs : List (GeoRow → Bool)) (r : GeoRow) : Bool :=
  cs.all (fun c => c r)

/-! ## Cascading deletes (claim C7) -/

/-- Row of the `likes` table. -/
structure LikeRow where
  id : Nat
  creation_time : Int
  medium_id : Nat
  user_id : Nat
deriving DecidableEq, Repr

/-- The three tables owned by the store (`media` rows reduced to their
primary-key ids, which is all the delete statements compare). -/
structure MediaState where
  media : List Nat
  tags : List TagRow
  likes : List LikeRow
deriving DecidableEq, Repr

/-- Embedding of `Media.delete_medium` (source lines 966-976): three DELETE
statements, on `media.id`, `tags.medium_id` and `likes.medium_id`. -/
def delete_medium (s : MediaState) (id : Nat) : MediaState :=
  { media := s.media.filter (fun m => m != id),
    tags := s.tags.filter (fun t => t.medium_id != id),
    likes := s.likes.filter (fun l => l.medium_id != id) }

/-- Embedding of `Media.delete_user_likes` (source lines 1333-1337): one
DELETE on `likes.user_id`. -/
def delete_user_likes (s : MediaState) (user_id : Nat) : MediaState :=
  { s with likes := s.likes.filter (fun l => l.user_id != user_id) }

/-! ## Tag store operations (claim C6)

Python's `list(set(xs))` deduplicates with an unspecified iteration order; it
is modelled by `List.dedup`, which only matters up to membership for the
properties proved here. -/

/-- Embedding of `Media.add_tags` (source lines 1055-1074): build one row per
`(medium_id, tag)` pair over the deduplicated inputs, skipping falsy (empty)
tags; an empty row list is a silent no-op, otherwise the rows are inserted. -/
def add_tags (s : List TagRow) (medium_ids : List Nat) (tags : List String) : List TagRow :=
  let rows := medium_ids.dedup.flatMap
    (fun mid => (tags.dedup.filter (fun t => t ≠ "")).map (fun t => TagRow.mk mid t))
  if rows.isEmpty then s else s ++ rows

/-- Embedding of `Media.remove_tags` (source lines 1076-1103): with no tag
list, delete every row whose `medium_id` is among the given ids; with a tag
list, delete rows matching one of the ids AND one of the non-empty tags.
An empty OR-group (`or_()` with no clauses) matches no row. -/
def remove_tags (s : List TagRow) (medium_ids : List Nat) (tags : List String) : List TagRow :=
  if tags.isEmpty then
    s.filter (fun r => !(medium_ids.dedup.any (fun mid => r.medium_id == mid)))
  else
    let tagConds := tags.dedup.filter (fun t => t ≠ "")
    s.filter (fun r =>
      !(medium_ids.dedup.any (fun mid => r.medium_id == mid)
        && tagConds.any (fun t => r.tag == t)))

/-- Embedding of `Media.set_tags` (source lines 1051-1053): remove all tags of
the given media, then add the new ones. -/
def set_tags (s : List TagRow) (medium_ids : List Nat) (tags : List String) : List TagRow :=
  add_tags (remove_tags s medium_ids []) medium_ids tags

/-- Tags attached to one medium in the table. -/
def tagsOf (mid : Nat) (s : List TagRow) : List String :=
  (s.filter (fun r => r.medium_id == mid)).map TagRow.tag

/-! ## The `liked_by_user` filter (claim C9)

Identifiers cross the external codec boundary as byte strings, so here ids
are `List Nat`; Python truthiness of `bytes` is emptiness.  `parse_id` is the
external Identifier Codec (`generate_or_parse` collaborator), taken as a
parameter returning `(canonical_text, raw_bytes)` or an error. -/

/-- Like row with byte-string ids, as compared by the liked-by subquery. -/
structure LikeRowB where
  medium_id : List Nat
  user_id : List Nat
deriving DecidableEq, Repr

/-- Embedding of the `liked_by_user` handling in
`Media.prepare_media_search_statement` (source lines 480-508): the value is
parsed inside `try/except: pass`; the restriction (`media.id IN` the per-user
like subquery) is appended only when the parsed bytes are truthy. -/
def search_media_liked {V : Type} (parseId : V → Except PyErr (String × List Nat))
    (media : List (List Nat)) (likes : List LikeRowB) (Q : List Nat → Bool) :
    Option V → List (List Nat)
  | none => media.filter (fun mid => Q mid)
  | some v =>
    match parseId v with
    | .error _ => media.filter (fun mid => Q mid)
    | .ok (_, b) =>
      if b.isEmpty then media.filter (fun mid => Q mid)
      else media.filter
        (fun mid => Q mid && likes.any (fun l => l.user_id == b && l.medium_id == mid))

/-! ## Seeded pseudo-random ordering in `search_media` (claim C5)

The random branch of `Media.search_media` (source lines 543-581) depends on
three external ingredients, taken as parameters of the embedding: the backend
random functions (`rand(seed)` on mysql/mssql, `random(seed)` on postgresql),
the SQL evaluation of the textual sqlite expression it synthesizes, and
`get_id_bytes` from the identifier codec.  Python's global `random` module
generator is threaded explicitly: `G` is its state type, `seed` the
`random.seed(n)` entry point, and the state produced by the trailing
no-argument `random.seed()` call (OS entropy) is a further parameter. -/

/-- Model of Python's global `random` generator: deterministic seeding and a
`randint(lo, hi)` step on the state. -/
structure RngModel (G : Type) where
  seed : Nat → G
  randint : Nat → Nat → G → Nat × G

/-- Columns of a media row consulted by the random ordering (the synthesized
sqlite key reads the id; the tie-break chain reads creation time and id). -/
structure RandRow where
  id : Nat
  creation_time : Int
deriving DecidableEq, Repr

/-- SQLAlchemy dialect names tested by the branch. -/
inductive Dialect
  | mysql
  | mssql
  | sqlite
  | postgresql
  | oracle
  | other
deriving DecidableEq, Repr

/-- Big-endian `int.from_bytes`. -/
def natFromBytes (bs : List Nat) : Nat := bs.foldl (fun acc b => acc * 256 + b) 0

/-- Embedding of the sqlite pseudo-random expression construction (source
lines 557-571): seed the global generator, draw eight `randint(0, 31)` values,
splice each into a `substr(hex(id), start, start + 1)` piece joined by `||`,
then strip the trailing three characters and close the parenthesis. -/
def buildPseudoRand {G : Type} (rng : RngModel G) (seedN : Nat) : String × G :=
  let init := rng.seed seedN
  let built := (List.range 8).foldl
    (fun (acc : String × G) _ =>
      let st := rng.randint 0 31 acc.2
      (acc.1 ++ "substr(hex(id), " ++ toString st.1 ++ ", "
        ++ toString (st.1 + 1) ++ ") ||", st.2))
    ("(", init)
  (built.1.dropRight 3 ++ ")", built.2)

/-- ORDER BY comparator of the random branch: the random key ascending, then
`creation_time` and `id` in the requested direction (the source forces the
direction to `desc` whenever it is not exactly `asc`). -/
def randKeyLe {K : Type} [LinearOrder K] (key : RandRow → K) (asc : Bool)
    (a b : RandRow) : Bool :=
  if key a = key b then
    if a.creation_time = b.creation_time then
      (if asc then decide (a.id ≤ b.id) else decide (b.id ≤ a.id))
    else
      (if asc then decide (a.creation_time < b.creation_time)
       else decide (b.creation_time < a.creation_time))
  else decide (key a < key b)

/-- The backend materializes the ordered result; modelled as a sort by the
ORDER BY comparator. -/
def sortRowsBy (le : RandRow → RandRow → Bool) (rows : List RandRow) : List RandRow :=
  List.insertionSort (fun a b => le a b = true) rows

/-- Embedding of the ordering part of `Media.search_media` (source lines
543-598): the random branch per dialect, the fallback `sort_statement` path
collapsed to its default creation-time chain.  Returns the ordered ids and
the final global-generator state (`entropy` stands for the state installed by
the trailing `random.seed()` call). -/
def search_media_order {G : Type} (rng : RngModel G) (g0 : G) (entropy : G)
    (dialect : Dialect)
    (backendRand : Nat → RandRow → Int)
    (pgRandom : Nat → RandRow → Int)
    (evalSql : String → RandRow → String)
    (getIdBytes : String → List Nat)
    (rows : List RandRow) (sort : String) (order : String) : List Nat × G :=
  if sort.take 7 = "random:"
      ∧ dialect ∈ [Dialect.mysql, .mssql, .sqlite, .postgresql] then
    let asc := order = "asc"
    let seedN := natFromBytes (getIdBytes (sort.drop 7))
    match dialect with
    | .mysql | .mssql =>
      ((sortRowsBy (randKeyLe (backendRand seedN) asc) rows).map RandRow.id, g0)
    | .sqlite =>
      let built := buildPseudoRand rng seedN
      ((sortRowsBy (randKeyLe (evalSql built.1) asc) rows).map RandRow.id, entropy)
    | .postgresql =>
      ((sortRowsBy (randKeyLe (pgRandom seedN) asc) rows).map RandRow.id, g0)
    | _ =>
      ((rows.map RandRow.id, g0) : List Nat × G)
  else
    ((sortRowsBy (randKeyLe (fun r => r.creation_time) (order = "asc")) rows).map
      RandRow.id, g0)

/-! ## Adjacent navigation (claim C1)

`Media.get_adjacent_media` in its default creation-time sort mode reads only
the `creation_time` and `id` columns of each row, so the row model carries
exactly those; every other search condition of the active filter is an
abstract predicate `P` (ids are globally unique, so any column filter factors
through the row).  Each query execution is modelled as filtering the table
and sorting by the statement's ORDER BY chain; `LIMIT 1` takes the head of
the ordered result. -/

/-- Media row columns read by the creation-time navigation queries. -/
structure NavRow where
  id : Nat
  creation_time : Int
deriving DecidableEq, Repr

/-- ORDER BY `creation_time ASC, creation_time ASC, id ASC`: the duplicated
creation-time key of the tie-break chain collapses to the lexicographic
`(creation_time, id)` order. -/
def ascLe (a b : NavRow) : Prop :=
  a.creation_time < b.creation_time
    ∨ (a.creation_time = b.creation_time ∧ a.id ≤ b.id)

instance : DecidableRel ascLe := fun a b =>
  inferInstanceAs (Decidable (a.creation_time < b.creation_time
    ∨ (a.creation_time = b.creation_time ∧ a.id ≤ b.id)))

/-- ORDER BY `creation_time DESC, creation_time DESC, id DESC`: the reversed
comparator. -/
def descLe (a b : NavRow) : Prop := ascLe b a

instance : DecidableRel descLe := fun a b =>
  inferInstanceAs (Decidable (b.creation_time < a.creation_time
    ∨ (b.creation_time = a.creation_time ∧ b.id ≤ a.id)))

instance : IsTotal NavRow ascLe := ⟨by intro a b; unfold ascLe; omega⟩

instance : IsTrans NavRow ascLe := ⟨by intro a b c; unfold ascLe; omega⟩

instance : IsAntisymm NavRow ascLe :=
  ⟨by intro a b h1 h2; unfold ascLe at h1 h2; cases a; cases b
      simp only [NavRow.mk.injEq]; simp only [] at h1 h2; omega⟩

instance : IsTotal NavRow descLe := ⟨fun a b => total_of ascLe b a⟩

instance : IsTrans NavRow descLe :=
  ⟨fun _ _ _ h1 h2 => Trans.trans (r := ascLe) (s := ascLe) h2 h1⟩

instance : IsAntisymm NavRow descLe := ⟨fun _ _ h1 h2 => antisymm h2 h1⟩

/-- Loop state of `capture_adjacent_media_from_result` (source lines 642-708):
`tempPrev` is the last non-matching row seen, `prev` the captured predecessor,
`captureNext` the flag set once the reference row has been passed; the first
row scanned with the flag set is returned as successor (`break`). -/
def captureAux (refId : Nat) (tempPrev prev : Option NavRow) (captureNext : Bool) :
    List NavRow → Option NavRow × Option NavRow
  | [] => (prev, none)
  | r :: rest =>
    if r.id = refId then captureAux refId tempPrev tempPrev true rest
    else if captureNext then (prev, some r)
    else captureAux refId (some r) prev captureNext rest

/-- Embedding of `Media.capture_adjacent_media_from_result`. -/
def capture_adjacent_media_from_result (refId : Nat) (result : List NavRow) :
    Option NavRow × Option NavRow :=
  captureAux refId none none false result

/-- Embedding of `Media.get_adjacent_media` (source lines 710-888) in the
default creation-time sort mode: the equal-batch query ordered ascending, then
the strictly-smaller fallback ordered descending with `LIMIT 1`, then the
strictly-greater fallback ordered ascending with `LIMIT 1`. -/
def get_adjacent_media (db : List NavRow) (P : NavRow → Bool) (medium : NavRow) :
    Option NavRow × Option NavRow :=
  let target := medium.creation_time
  let result_eq := List.insertionSort ascLe
    (db.filter (fun r => P r && decide (r.creation_time = target)))
  let pn := capture_adjacent_media_from_result medium.id result_eq
  let prev := match pn.1 with
    | some p => some p
    | none =>
      (List.insertionSort descLe
        (db.filter (fun r => P r && decide (r.creation_time < target)))).head?
  let next := match pn.2 with
    | some n => some n
    | none =>
      (List.insertionSort ascLe
        (db.filter (fun r => P r && decide (target < r.creation_time)))).head?
  (prev, next)

/-- Immediate neighbors of the row carrying `refId` inside an ordered view:
scan the view keeping the previously passed row; at the reference row the
kept row is the predecessor and the following row the successor. -/
def neighborsGo (refId : Nat) (acc : Option NavRow) :
    List NavRow → Option NavRow × Option NavRow
  | [] => (none, none)
  | x :: xs => if x.id = refId then (acc, xs.head?) else neighborsGo refId (some x) xs

/-- Immediate predecessor and successor of `refId` in the list `l`. -/
def neighbors (refId : Nat) (l : List NavRow) : Option NavRow × Option NavRow :=
  neighborsGo refId none l

/-! ## Theorems -/

/-- C2: the name/int round-trip claimed for all three enumerations fails for
`MediumSearchability`: its `parse_searchability` int branch calls the enum
class without the value argument, so every integer input - including the
member values 1, 2, 3 - raises `TypeError` instead of returning the member.
The sibling parsers convert integers correctly, and the name path still
works, showing the missing argument is a slip. -/
theorem parse_searchability_int_raises :
    parse_searchability (.int 1) = .error .typeError
    ∧ parse_searchability (.int 2) = .error .typeError
    ∧ parse_searchability (.int 3) = .error .typeError
    ∧ parse_status (.int 1) = .ok .ALLOWED
    ∧ parse_protection (.int 1) = .ok .NONE
    ∧ parse_searchability (.name "HIDDEN") = .ok .HIDDEN := by
  exact ⟨rfl, rfl, rfl, rfl, rfl, rfl⟩

/-- C10: `count_tags` asks the tags table for a column attribute `media_id`
that is not among its columns (`medium_id`, `tag`), so every invocation
fails with `AttributeError` and no count is ever returned. -/
theorem count_tags_always_fails (rows : List TagRow) (cond : TagRow → Bool) :
    count_tags rows cond = .error .attributeError := rfl

/-- C7: `delete_medium` removes the medium row and exactly the tag and like
rows carrying that medium id; `delete_user_likes` removes exactly the like
rows of the given user and touches nothing else. -/
theorem delete_cascades (s : MediaState) (id uid : Nat) :
    (∀ m, m ∈ (delete_medium s id).media ↔ m ∈ s.media ∧ m ≠ id)
    ∧ (∀ t, t ∈ (delete_medium s id).tags ↔ t ∈ s.tags ∧ t.medium_id ≠ id)
    ∧ (∀ l, l ∈ (delete_medium s id).likes ↔ l ∈ s.likes ∧ l.medium_id ≠ id)
    ∧ (∀ l, l ∈ (delete_user_likes s uid).likes ↔ l ∈ s.likes ∧ l.user_id ≠ uid)
    ∧ (delete_user_likes s uid).media = s.media
    ∧ (delete_user_likes s uid).tags = s.tags := by
  refine ⟨?_, ?_, ?_, ?_, rfl, rfl⟩ <;>
    (intro x; simp [delete_medium, delete_user_likes, List.mem_filter])

/-- C8: the `portrait` / `landscape` filter conditions select exactly the
claimed descriptor comparisons, and their false-branches overlap exactly at
`data1 = data2`. -/
theorem portrait_landscape_conditions (r : GeoRow) :
    (holdsAll (portraitConditions true) r = true
      ↔ 0 < r.data1 ∧ 0 < r.data2 ∧ r.data1 < r.data2)
    ∧ (holdsAll (portraitConditions false) r = true ↔ r.data2 ≤ r.data1)
    ∧ (holdsAll (landscapeConditions true) r = true
      ↔ 0 < r.data1 ∧ 0 < r.data2 ∧ r.data2 < r.data1)
    ∧ (holdsAll (landscapeConditions false) r = true ↔ r.data1 ≤ r.data2)
    ∧ ((holdsAll (portraitConditions false) r = true
        ∧ holdsAll (landscapeConditions false) r = true) ↔ r.data1 = r.data2) := by
  refine ⟨?_, ?_, ?_, ?_, ?_⟩ <;>
    (simp [holdsAll, portraitConditions, landscapeConditions]; try omega)

/-- C5: with a fixed seed token over fixed data, the random-sort branch of
`search_media` produces the same ordered id sequence on every invocation,
whatever the prior state of the global random generator and whatever entropy
the trailing `random.seed()` installs afterwards - for every dialect. -/
theorem random_sort_deterministic {G : Type} (rng : RngModel G) (g₁ g₂ e₁ e₂ : G)
    (dialect : Dialect) (backendRand pgRandom : Nat → RandRow → Int)
    (evalSql : String → RandRow → String) (getIdBytes : String → List Nat)
    (rows : List RandRow) (sort order : String) :
    (search_media_order rng g₁ e₁ dialect backendRand pgRandom evalSql getIdBytes
      rows sort order).1
    = (search_media_order rng g₂ e₂ dialect backendRand pgRandom evalSql getIdBytes
      rows sort order).1 := by
  unfold search_media_order
  split
  · cases dialect <;> rfl
  · rfl

/-- Dropping the elements a boolean test rejects does not change a `filterMap`
whose function returns `none` on exactly those elements. -/
theorem filterMap_filter_of_none {α β : Type} (k : α → Bool) (h : α → Option β)
    (hk : ∀ v, k v = false → h v = none) (l : List α) :
    (l.filter k).filterMap h = l.filterMap h := by
  induction l with
  | nil => rfl
  | cons x xs ih =>
    cases hx : k x with
    | true => simp [List.filter_cons, hx, List.filterMap_cons, ih]
    | false => simp [List.filter_cons, hx, List.filterMap_cons, hk x hx, ih]

/-- Restricting a list to the values a fallible parser accepts does not change
the list of parse results. -/
theorem filterMap_toOption_filter_isOk {α β ε : Type} (g : α → Except ε β) (l : List α) :
    (l.filter (fun v => (g v).isOk)).filterMap (fun v => (g v).toOption)
      = l.filterMap (fun v => (g v).toOption) :=
  filterMap_filter_of_none _ _
    (by
      intro v hv
      cases h : g v with
      | error e => simp [h, Except.toOption]
      | ok b => rw [h] at hv; simp [Except.isOk, Except.toBool] at hv)
    l

/-- C3: for each `with_<enum-field>` filter, values that fail to parse are
dropped from the OR block, so a mixed list behaves exactly as the sublist of
values that parse; when every value fails to parse the appended condition is
the literal `False` and the search returns zero rows. -/
theorem with_enum_filter_drops_invalid (f : EnumField) (db : List EnumRow)
    (Q : EnumRow → Bool) (vals : List FilterVal) :
    searchWith f db Q vals
      = searchWith f db Q (vals.filter (fun v => (fieldParse f v).isOk))
    ∧ ((∀ v ∈ vals, (fieldParse f v).isOk = false) → searchWith f db Q vals = []) := by
  constructor
  · unfold searchWith withFieldCondition
    rw [filterMap_toOption_filter_isOk]
  · intro hall
    have hb : vals.filterMap (fun v => (fieldParse f v).toOption) = [] := by
      rw [List.filterMap_eq_nil_iff]
      intro a ha
      have := hall a ha
      cases h : fieldParse f a with
      | ok b => rw [h] at this; simp [Except.toBool] at this
      | error e => simp [h, Except.toOption]
    simp [searchWith, withFieldCondition, hb]

/-- Witness for C3 at concrete inputs: one valid plus one invalid status value
behaves as the valid one alone, and an all-invalid list yields no rows. -/
theorem with_enum_filter_drops_invalid_witness :
    searchWith .statuses [⟨1, 1, 1⟩] (fun _ => true) [.status .ALLOWED, .other]
      = searchWith .statuses [⟨1, 1, 1⟩] (fun _ => true)
          ([.status .ALLOWED, .other].filter (fun v => (fieldParse .statuses v).isOk))
    ∧ searchWith .statuses [⟨1, 1, 1⟩] (fun _ => true) [.other, .name "BOGUS"] = [] :=
  ⟨(with_enum_filter_drops_invalid .statuses [⟨1, 1, 1⟩] (fun _ => true)
      [.status .ALLOWED, .other]).1,
   (with_enum_filter_drops_invalid .statuses [⟨1, 1, 1⟩] (fun _ => true)
      [.other, .name "BOGUS"]).2 (by decide)⟩

/-- C4 counterexample: a `without_statuses` list whose only value fails to
parse does NOT leave the result unrestricted - the empty AND block appends the
literal `False` condition and the search returns zero rows, unlike the same
search without the filter key. -/
theorem without_all_invalid_not_unrestricted :
    searchWithout .statuses [⟨1, 1, 1⟩] (fun _ => true) (some [.other])
      ≠ searchWithout .statuses [⟨1, 1, 1⟩] (fun _ => true) none := by
  decide

/-- C4 as amended: each value of a `without_<enum-field>` filter that fails to
parse is skipped, so a mixed list behaves exactly as the sublist of values
that parse; but when EVERY supplied value fails to parse the block collapses
to the literal `False` condition and the search returns zero rows (it does not
fall back to the unrestricted result). -/
theorem without_enum_filter_skips_invalid (f : EnumField) (db : List EnumRow)
    (Q : EnumRow → Bool) (vals : List FilterVal) :
    searchWithout f db Q (some vals)
      = searchWithout f db Q (some (vals.filter (fun v => (fieldParse f v).isOk)))
    ∧ ((∀ v ∈ vals, (fieldParse f v).isOk = false)
        → searchWithout f db Q (some vals) = []) := by
  constructor
  · simp only [searchWithout, withoutFieldCondition]
    rw [filterMap_toOption_filter_isOk]
  · intro hall
    have hb : vals.filterMap (fun v => (fieldParse f v).toOption) = [] := by
      rw [List.filterMap_eq_nil_iff]
      intro a ha
      have := hall a ha
      cases h : fieldParse f a with
      | ok b => rw [h] at this; simp [Except.toBool] at this
      | error e => simp [h, Except.toOption]
    simp [searchWithout, withoutFieldCondition, hb]

/-- Witness for C4 at concrete inputs. -/
theorem without_enum_filter_skips_invalid_witness :
    searchWithout .statuses [⟨1, 1, 1⟩] (fun _ => true) (some [.status .COPYRIGHT, .other])
      = searchWithout .statuses [⟨1, 1, 1⟩] (fun _ => true)
          (some ([.status .COPYRIGHT, .other].filter
            (fun v => (fieldParse .statuses v).isOk)))
    ∧ searchWithout .statuses [⟨1, 1, 1⟩] (fun _ => true) (some [.other]) = [] :=
  ⟨(without_enum_filter_skips_invalid .statuses [⟨1, 1, 1⟩] (fun _ => true)
      [.status .COPYRIGHT, .other]).1,
   (without_enum_filter_skips_invalid .statuses [⟨1, 1, 1⟩] (fun _ => true)
      [.other]).2 (by decide)⟩

/-- C9: when the `liked_by_user` value parses to (non-empty) id bytes, the
search result is the unfiltered-by-this-key result restricted to media with
at least one like row from that user; when parsing fails, the key is silently
ignored and the result is exactly the result without it. -/
theorem liked_by_user_filter {V : Type} (parseId : V → Except PyErr (String × List Nat))
    (media : List (List Nat)) (likes : List LikeRowB) (Q : List Nat → Bool) (v : V) :
    (∀ s b, parseId v = .ok (s, b) → b ≠ [] →
      ∀ mid, (mid ∈ search_media_liked parseId media likes Q (some v) ↔
        (mid ∈ search_media_liked parseId media likes Q none
          ∧ ∃ l ∈ likes, l.user_id = b ∧ l.medium_id = mid)))
    ∧ (∀ e, parseId v = .error e →
      search_media_liked parseId media likes Q (some v)
        = search_media_liked parseId media likes Q none) := by
  constructor
  · intro s b hok hb mid
    simp only [search_media_liked, hok]
    rw [if_neg (by simpa using hb)]
    simp only [List.mem_filter, Bool.and_eq_true, List.any_eq_true, beq_iff_eq]
    tauto
  · intro e herr
    simp only [search_media_liked, herr]

/-- Witness for C9 at concrete inputs: a parsed user id restricts to liked
media, a failed parse leaves the result unchanged. -/
theorem liked_by_user_filter_witness :
    (([7] : List Nat) ∈ search_media_liked (fun _ : Unit => Except.ok ("u", [5]))
        [[7]] [⟨[7], [5]⟩] (fun _ => true) (some ())
      ↔ (([7] : List Nat) ∈ search_media_liked (fun _ : Unit => Except.ok ("u", [5]))
          [[7]] [⟨[7], [5]⟩] (fun _ => true) none
        ∧ ∃ l ∈ [(⟨[7], [5]⟩ : LikeRowB)], l.user_id = [5] ∧ l.medium_id = [7]))
    ∧ search_media_liked (fun _ : Unit => Except.error PyErr.typeError)
        [[7]] [] (fun _ => true) (some ())
      = search_media_liked (fun _ : Unit => Except.error PyErr.typeError)
        [[7]] [] (fun _ => true) none :=
  ⟨(liked_by_user_filter (fun _ : Unit => Except.ok ("u", [5]))
      [[7]] [⟨[7], [5]⟩] (fun _ => true) ()).1 "u" [5] rfl (by decide) [7],
   (liked_by_user_filter (fun _ : Unit => Except.error PyErr.typeError)
      [[7]] [] (fun _ => true) ()).2 PyErr.typeError rfl⟩

theorem tagsOf_append (mid : Nat) (s₁ s₂ : List TagRow) :
    tagsOf mid (s₁ ++ s₂) = tagsOf mid s₁ ++ tagsOf mid s₂ := by
  simp [tagsOf, List.filter_append]

/-- After `remove_tags` with no tag list, a medium named in the id list has no
tag rows left. -/
theorem tagsOf_remove_all (s : List TagRow) (mids : List Nat) (mid : Nat)
    (h : mid ∈ mids) :
    tagsOf mid (remove_tags s mids []) = [] := by
  have hf : (remove_tags s mids []).filter (fun r => r.medium_id == mid) = [] := by
    rw [List.filter_eq_nil_iff]
    intro a ha
    simp only [remove_tags, List.isEmpty_nil, if_true, List.mem_filter,
      Bool.not_eq_eq_eq_not, Bool.not_true, List.any_eq_false] at ha
    have := ha.2 mid (List.mem_dedup.mpr h)
    simpa using this
  simp only [tagsOf, hf, List.map_nil]

/-- Filtering a block of rows built for one medium id down to another id keeps
everything or nothing. -/
theorem tagsOf_map_mk (mid m : Nat) (tl : List String) :
    tagsOf mid (tl.map (TagRow.mk m)) = if m = mid then tl else [] := by
  simp only [tagsOf, List.filter_map]
  by_cases h : m = mid
  · subst h
    simp [Function.comp_def]
  · simp [Function.comp_def, h]

/-- Tags a medium receives from the rows `add_tags` builds over a duplicate-free
id list: its own block when it is listed, nothing otherwise. -/
theorem tagsOf_flatMap_blocks (mid : Nat) (mids : List Nat) (tl : List String)
    (hnd : mids.Nodup) :
    tagsOf mid (mids.flatMap (fun m => tl.map (TagRow.mk m)))
      = if mid ∈ mids then tl else [] := by
  induction mids with
  | nil => simp [tagsOf]
  | cons m ms ih =>
    rcases List.nodup_cons.mp hnd with ⟨hm, hnd2⟩
    rw [List.flatMap_cons, tagsOf_append, tagsOf_map_mk]
    by_cases h : m = mid
    · subst h
      simp [ih hnd2, hm]
    · rw [if_neg h, ih hnd2, List.nil_append]
      by_cases h2 : mid ∈ ms
      · rw [if_pos h2, if_pos (List.mem_cons.mpr (Or.inr h2))]
      · rw [if_neg h2, if_neg (fun hc => by
          rcases List.mem_cons.mp hc with h3 | h3
          · exact h h3.symm
          · exact h2 h3)]

/-- C6 counterexample: replacing the tag set `["a", "b"]` of medium 1 by the
second list `[""]` leaves nothing attached - `add_tags` skips the falsy empty
tag - so the second list is not what ends up attached. -/
theorem set_tags_empty_tag_not_attached :
    tagsOf 1 (set_tags (set_tags [] [1] ["a", "b"]) [1] [""]) = []
    ∧ "" ∈ [""] := by
  constructor
  · rfl
  · decide

/-- C6 as amended: after `set_tags` with a second list, the tags attached to a
medium named in the id list are exactly the distinct non-empty tags of that
second list - none of the earlier tags survive. -/
theorem set_tags_replaces (s : List TagRow) (mids : List Nat) (tags : List String)
    (mid : Nat) (hmid : mid ∈ mids) :
    (∀ t, t ∈ tagsOf mid (set_tags s mids tags) ↔ (t ∈ tags ∧ t ≠ ""))
    ∧ (tagsOf mid (set_tags s mids tags)).Nodup := by
  have hmem : ∀ t, t ∈ tags.dedup.filter (fun t => t ≠ "") ↔ (t ∈ tags ∧ t ≠ "") := by
    intro t
    simp [List.mem_filter, List.mem_dedup]
  have hnd_tl : (tags.dedup.filter (fun t => t ≠ "")).Nodup :=
    (List.nodup_dedup tags).filter _
  unfold set_tags add_tags
  by_cases hempty :
    (mids.dedup.flatMap
      (fun m => (tags.dedup.filter (fun t => t ≠ "")).map (TagRow.mk m))).isEmpty
  · rw [if_pos hempty]
    have h0 := tagsOf_remove_all s mids mid hmid
    have htl : tags.dedup.filter (fun t => t ≠ "") = [] := by
      have hx := tagsOf_flatMap_blocks mid mids.dedup
        (tags.dedup.filter (fun t => t ≠ "")) (List.nodup_dedup mids)
      rw [List.isEmpty_iff.mp hempty] at hx
      rw [if_pos (List.mem_dedup.mpr hmid)] at hx
      simpa [tagsOf] using hx.symm
    constructor
    · intro t
      rw [h0, ← hmem t, htl]
    · rw [h0]
      exact List.nodup_nil
  · rw [if_neg hempty]
    rw [tagsOf_append, tagsOf_remove_all s mids mid hmid, List.nil_append,
      tagsOf_flatMap_blocks mid mids.dedup _ (List.nodup_dedup mids),
      if_pos (List.mem_dedup.mpr hmid)]
    exact ⟨hmem, hnd_tl⟩

/-- Witness for the amended C6 at concrete inputs. -/
theorem set_tags_replaces_witness :
    ((1 : Nat) ∈ [1])
    ∧ (∀ t, t ∈ tagsOf 1 (set_tags [] [1] ["c"]) ↔ (t ∈ ["c"] ∧ t ≠ ""))
    ∧ (tagsOf 1 (set_tags [] [1] ["c"])).Nodup :=
  ⟨by decide, (set_tags_replaces [] [1] ["c"] 1 (by decide)).1,
   (set_tags_replaces [] [1] ["c"] 1 (by decide)).2⟩

theorem getLast?_cons_or {α : Type} (x : α) (xs : List α) (acc : Option α) :
    ((x :: xs).getLast?).or acc = (xs.getLast?).or (some x) := by
  cases hxs : xs.getLast? with
  | none =>
    have hx : xs = [] := List.getLast?_eq_none_iff.mp hxs
    subst hx
    rfl
  | some y =>
    cases xs with
    | nil => cases hxs
    | cons z zs =>
      rw [List.getLast?_cons_cons, hxs]
      rfl

/-- Scanning past a prefix that does not contain the reference id only updates
the accumulator to the last row of that prefix. -/
theorem neighborsGo_append (refId : Nat) (l₂ : List NavRow) :
    ∀ (l₁ : List NavRow), (∀ x ∈ l₁, x.id ≠ refId) → ∀ (acc : Option NavRow),
      neighborsGo refId acc (l₁ ++ l₂) = neighborsGo refId ((l₁.getLast?).or acc) l₂
  | [], _, acc => rfl
  | x :: xs, h, acc => by
    have hx : x.id ≠ refId := h x (List.mem_cons_self x xs)
    simp only [List.cons_append, neighborsGo, List.append_eq]
    rw [if_neg hx,
      neighborsGo_append refId l₂ xs (fun y hy => h y (List.mem_cons_of_mem x hy)) (some x),
      getLast?_cons_or]

/-- The capture loop behaves the same way while the flag is down and the
reference row has not been seen. -/
theorem captureAux_skip (refId : Nat) (l₂ : List NavRow) :
    ∀ (l₁ : List NavRow), (∀ x ∈ l₁, x.id ≠ refId) → ∀ (tp pv : Option NavRow),
      captureAux refId tp pv false (l₁ ++ l₂)
        = captureAux refId ((l₁.getLast?).or tp) pv false l₂
  | [], _, tp, pv => rfl
  | x :: xs, h, tp, pv => by
    have hx : x.id ≠ refId := h x (List.mem_cons_self x xs)
    simp only [List.cons_append, captureAux, List.append_eq]
    rw [if_neg hx]
    simp only [Bool.false_eq_true, if_false]
    rw [captureAux_skip refId l₂ xs (fun y hy => h y (List.mem_cons_of_mem x hy)) (some x) pv,
      getLast?_cons_or]

/-- Once the flag is up, the next scanned row (none on an exhausted batch) is
returned as successor. -/
theorem captureAux_found (refId : Nat) :
    ∀ (l : List NavRow), (∀ x ∈ l, x.id ≠ refId) → ∀ (tp pv : Option NavRow),
      captureAux refId tp pv true l = (pv, l.head?)
  | [], _, tp, pv => rfl
  | x :: xs, h, tp, pv => by
    have hx : x.id ≠ refId := h x (List.mem_cons_self x xs)
    simp only [captureAux]
    rw [if_neg hx]
    rfl

/-- The sorted view splits into the sorted strictly-smaller, equal, and
strictly-greater creation-time segments. -/
theorem insertionSort_partition (c : Int) (F : List NavRow) :
    List.insertionSort ascLe F
      = List.insertionSort ascLe (F.filter (fun r => decide (r.creation_time < c)))
        ++ List.insertionSort ascLe (F.filter (fun r => decide (r.creation_time = c)))
        ++ List.insertionSort ascLe (F.filter (fun r => decide (c < r.creation_time))) := by
  have hE : (F.filter (fun r => !decide (r.creation_time < c))).filter
      (fun r => decide (r.creation_time = c))
      = F.filter (fun r => decide (r.creation_time = c)) := by
    rw [List.filter_filter]
    apply List.filter_congr
    intro x _
    by_cases hx : x.creation_time = c
    · simp [hx]
    · simp [hx]
  have hG : (F.filter (fun r => !decide (r.creation_time < c))).filter
      (fun r => !decide (r.creation_time = c))
      = F.filter (fun r => decide (c < r.creation_time)) := by
    rw [List.filter_filter]
    apply List.filter_congr
    intro x _
    by_cases h1 : x.creation_time < c
    · simp [h1, show ¬(c < x.creation_time) by omega]
    · by_cases h2 : x.creation_time = c
      · simp [h1, h2]
      · simp [h1, h2, show c < x.creation_time by omega]
  have hperm : List.Perm
      (List.insertionSort ascLe (F.filter (fun r => decide (r.creation_time < c)))
        ++ List.insertionSort ascLe (F.filter (fun r => decide (r.creation_time = c)))
        ++ List.insertionSort ascLe (F.filter (fun r => decide (c < r.creation_time))))
      F := by
    have h1 := List.perm_insertionSort ascLe (F.filter (fun r => decide (r.creation_time < c)))
    have h2 := List.perm_insertionSort ascLe (F.filter (fun r => decide (r.creation_time = c)))
    have h3 := List.perm_insertionSort ascLe (F.filter (fun r => decide (c < r.creation_time)))
    refine ((h1.append h2).append h3).trans ?_
    rw [List.append_assoc]
    have hEG : List.Perm
        (F.filter (fun r => decide (r.creation_time = c))
          ++ F.filter (fun r => decide (c < r.creation_time)))
        (F.filter (fun r => !decide (r.creation_time < c))) := by
      rw [← hE, ← hG]
      exact List.filter_append_perm _ _
    refine (List.Perm.append_left _ hEG).trans ?_
    exact List.filter_append_perm _ F
  apply List.eq_of_perm_of_sorted
    ((List.perm_insertionSort ascLe F).trans hperm.symm)
    (List.sorted_insertionSort ascLe F)
  apply List.pairwise_append.mpr
  refine ⟨List.pairwise_append.mpr ⟨List.sorted_insertionSort ascLe _,
    List.sorted_insertionSort ascLe _, ?_⟩, List.sorted_insertionSort ascLe _, ?_⟩
  · intro a ha b hb
    have ha2 : a.creation_time < c := by
      simpa using (List.mem_filter.mp ((List.mem_insertionSort ascLe).mp ha)).2
    have hb2 : b.creation_time = c := by
      simpa using (List.mem_filter.mp ((List.mem_insertionSort ascLe).mp hb)).2
    exact Or.inl (by omega)
  · intro a ha b hb
    have hb2 : c < b.creation_time := by
      simpa using (List.mem_filter.mp ((List.mem_insertionSort ascLe).mp hb)).2
    rcases List.mem_append.mp ha with ha | ha
    · have ha2 : a.creation_time < c := by
        simpa using (List.mem_filter.mp ((List.mem_insertionSort ascLe).mp ha)).2
      exact Or.inl (by omega)
    · have ha2 : a.creation_time = c := by
        simpa using (List.mem_filter.mp ((List.mem_insertionSort ascLe).mp ha)).2
      exact Or.inl (by omega)

/-- Sorting by the reversed comparator yields the reverse of the ascending
sort, so the `LIMIT 1` head of a descending query is the last row of the
ascending order. -/
theorem insertionSort_descLe_eq_reverse (l : List NavRow) :
    List.insertionSort descLe l = (List.insertionSort ascLe l).reverse := by
  apply List.eq_of_perm_of_sorted (r := descLe)
  · exact (List.perm_insertionSort descLe l).trans
      (((List.perm_insertionSort ascLe l).symm).trans
        (List.reverse_perm (List.insertionSort ascLe l)).symm)
  · exact List.sorted_insertionSort descLe l
  · exact List.pairwise_reverse.mpr (List.sorted_insertionSort ascLe l)

/-- In a list whose mapped ids are duplicate-free, the rows around a central
row all carry a different id. -/
theorem ids_around (u v : List NavRow) (m : NavRow)
    (h : ((u ++ m :: v).map NavRow.id).Nodup) :
    (∀ x ∈ u, x.id ≠ m.id) ∧ (∀ x ∈ v, x.id ≠ m.id) := by
  rw [List.map_append, List.map_cons] at h
  rcases List.nodup_append.mp h with ⟨h1, h2, hdisj⟩
  constructor
  · intro x hx heq
    exact hdisj (List.mem_map_of_mem NavRow.id hx)
      (heq ▸ List.mem_cons_self m.id (v.map NavRow.id))
  · intro x hx heq
    rcases List.nodup_cons.mp h2 with ⟨hmnot, _⟩
    exact hmnot (heq ▸ List.mem_map_of_mem NavRow.id hx)

/-- C1: in the default ascending creation-time ordering, for any filter the
reference medium matches and any table whose ids are unique,
`get_adjacent_media` returns exactly the immediate predecessor and successor
of the reference medium in the sorted filtered view (ties resolved by the
creation-time-then-id chain); at the first or last position the respective
neighbor is empty. -/
theorem get_adjacent_media_correct (db : List NavRow) (P : NavRow → Bool) (m : NavRow)
    (hm : m ∈ db) (hP : P m = true) (hnd : (db.map NavRow.id).Nodup) :
    get_adjacent_media db P m
      = neighbors m.id (List.insertionSort ascLe (db.filter P)) := by
  have hndF : ((db.filter P).map NavRow.id).Nodup :=
    (List.Sublist.map NavRow.id (List.filter_sublist db)).nodup hnd
  have hfeq : db.filter (fun r => P r && decide (r.creation_time = m.creation_time))
      = (db.filter P).filter (fun r => decide (r.creation_time = m.creation_time)) := by
    rw [List.filter_filter]
    apply List.filter_congr
    intro x _
    exact Bool.and_comm _ _
  have hflt : db.filter (fun r => P r && decide (r.creation_time < m.creation_time))
      = (db.filter P).filter (fun r => decide (r.creation_time < m.creation_time)) := by
    rw [List.filter_filter]
    apply List.filter_congr
    intro x _
    exact Bool.and_comm _ _
  have hfgt : db.filter (fun r => P r && decide (m.creation_time < r.creation_time))
      = (db.filter P).filter (fun r => decide (m.creation_time < r.creation_time)) := by
    rw [List.filter_filter]
    apply List.filter_congr
    intro x _
    exact Bool.and_comm _ _
  have hmF : m ∈ db.filter P := List.mem_filter.mpr ⟨hm, hP⟩
  have hmE : m ∈ (db.filter P).filter
      (fun r => decide (r.creation_time = m.creation_time)) :=
    List.mem_filter.mpr ⟨hmF, by simp⟩
  have hndE : (((db.filter P).filter
      (fun r => decide (r.creation_time = m.creation_time))).map NavRow.id).Nodup :=
    (List.Sublist.map NavRow.id (List.filter_sublist _)).nodup hndF
  have hmSE : m ∈ List.insertionSort ascLe ((db.filter P).filter
      (fun r => decide (r.creation_time = m.creation_time))) :=
    (List.mem_insertionSort ascLe).mpr hmE
  obtain ⟨u, v, huv⟩ := List.append_of_mem hmSE
  have hndSE : ((u ++ m :: v).map NavRow.id).Nodup := by
    rw [← huv]
    exact (((List.perm_insertionSort ascLe _).map NavRow.id).nodup_iff).mpr hndE
  obtain ⟨hu, hv⟩ := ids_around u v m hndSE
  have hinj := List.inj_on_of_nodup_map hndF
  have hL : ∀ x ∈ List.insertionSort ascLe ((db.filter P).filter
      (fun r => decide (r.creation_time < m.creation_time))), x.id ≠ m.id := by
    intro x hx heq
    have hx2 := List.mem_filter.mp ((List.mem_insertionSort ascLe).mp hx)
    have hxm : x = m := hinj hx2.1 hmF heq
    rw [hxm] at hx2
    simp at hx2
  have hG : ∀ x ∈ List.insertionSort ascLe ((db.filter P).filter
      (fun r => decide (m.creation_time < r.creation_time))), x.id ≠ m.id := by
    intro x hx heq
    have hx2 := List.mem_filter.mp ((List.mem_insertionSort ascLe).mp hx)
    have hxm : x = m := hinj hx2.1 hmF heq
    rw [hxm] at hx2
    simp at hx2
  simp only [get_adjacent_media, capture_adjacent_media_from_result, neighbors]
  rw [hfeq, hflt, hfgt]
  rw [insertionSort_partition m.creation_time (db.filter P)]
  rw [huv]
  rw [List.append_assoc, List.append_assoc, List.cons_append]
  rw [captureAux_skip m.id (m :: v) u hu none none]
  have hcap : captureAux m.id ((u.getLast?).or none) none false (m :: v)
      = ((u.getLast?).or none, v.head?) := by
    simp only [captureAux, if_true]
    exact captureAux_found m.id v hv _ _
  rw [hcap]
  rw [neighborsGo_append m.id _ _ hL none]
  rw [neighborsGo_append m.id _ u hu _]
  simp only [neighborsGo, if_true]
  rw [List.head?_append]
  rw [insertionSort_descLe_eq_reverse, List.head?_reverse]
  cases hu2 : u.getLast? <;> cases hv2 : v.head? <;>
    simp [Option.or_none, Option.none_or]

/-- Witness for C1: five media A < B < C < D < E by creation time under the
all-pass filter; the theorem applies and the navigation of C concretely
returns (B, D). -/
theorem get_adjacent_media_correct_witness :
    ((([⟨10, 1⟩, ⟨20, 2⟩, ⟨30, 3⟩, ⟨40, 4⟩, ⟨50, 5⟩] : List NavRow).map NavRow.id).Nodup)
    ∧ get_adjacent_media [⟨10, 1⟩, ⟨20, 2⟩, ⟨30, 3⟩, ⟨40, 4⟩, ⟨50, 5⟩]
        (fun _ => true) ⟨30, 3⟩
      = neighbors (NavRow.mk 30 3).id (List.insertionSort ascLe
          (([⟨10, 1⟩, ⟨20, 2⟩, ⟨30, 3⟩, ⟨40, 4⟩, ⟨50, 5⟩] : List NavRow).filter
            (fun _ => true)))
    ∧ get_adjacent_media [⟨10, 1⟩, ⟨20, 2⟩, ⟨30, 3⟩, ⟨40, 4⟩, ⟨50, 5⟩]
        (fun _ => true) ⟨30, 3⟩
      = (some ⟨20, 2⟩, some ⟨40, 4⟩) :=
  ⟨by decide,
   get_adjacent_media_correct [⟨10, 1⟩, ⟨20, 2⟩, ⟨30, 3⟩, ⟨40, 4⟩, ⟨50, 5⟩]
     (fun _ => true) ⟨30, 3⟩ (by decide) rfl (by decide),
   by decide⟩

end MediaSpec
